import Mathlib

/-!
# Verification of the DST index downloader (package `dst`)

Shallow embedding of `src/dst_interval.go` (the interval partitioner
`downloadIntervals`), `src/dst.go` (`downloadUrl`, `Fetch`, `FetchAll`) and
`src/internal/requests/requests.go` (`Get`).

Modelling conventions.

* Go `int` (64 bits) values are mathematical integers (`Int`): no wraparound
  is modelled.
* Go `%` and `/` on `int` truncate toward zero: they are `Int.tmod` and
  `Int.tdiv`.
* `math.Ceil((float64(endYear) - float64(startYear)) / float64(period))` is
  modelled by the exact ceiling of the rational quotient (`ceilDiv`).
  A period of `0` (a float division by zero in the source) is outside the model.
* The two idealisations above are exact when the years and the period have
  magnitude below `2 ^ 52` (`inModelRange`): the conversions to float64 and
  their difference are then exact, the rounded quotient has the same ceiling
  as the exact one, and no `int` operation of the loop wraps.  Every theorem
  that quantifies over the arguments of `downloadIntervals` carries these
  bounds as hypotheses; every call that `Fetch` makes with a plausible
  calendar year satisfies them.
* `time.Now().Year()` is a parameter `currentYear`.
* In `Fetch`, `requests.Get` is a parameter: a state-passing collaborator
  `get : URL → σ → Except error Bytes × σ`.
* `Get` itself is modelled on the outcomes of its three operations
  (`Transport`), with the deferred closure run after the returned pair is fixed.
-/

namespace Dst

/-! ## `src/dst_interval.go` -/

/-- Go `time.Month` is an integer type (`type Month int`). -/
abbrev Month := Int

/-- The constant `time.January`. -/
def January : Month := 1

/-- The constant `time.December`. -/
def December : Month := 12

/-- The struct `downloadInterval` of `src/dst_interval.go`. -/
structure downloadInterval where
  sCent : Int
  sTens : Int
  sYear : Int
  sMonth : Month
  eCent : Int
  eTens : Int
  eYear : Int
  eMonth : Month
deriving DecidableEq, Repr

/-- Ceiling of the exact quotient `a / b`: the value of
`math.Ceil(float64(a) / float64(b))` for `b ≠ 0`. -/
def ceilDiv (a b : Int) : Int := -(Int.fdiv (-a) b)

/-- The loop bound of `downloadIntervals`: the ceiling of
`(endYear - startYear) / period`, replaced by `1` when it is `0`. -/
def numberOfIntervals (startYear endYear period : Int) : Int :=
  let n := ceilDiv (endYear - startYear) period
  if n = 0 then 1 else n

/-- One iteration of the loop body of `downloadIntervals` at cursor
`currentPeriodStartYear`: the interval appended to the list. -/
def intervalAt (endYear period currentPeriodStartYear : Int) : downloadInterval :=
  let sMonth := January
  let sYear := Int.tmod currentPeriodStartYear 10
  let sTens := Int.tmod (currentPeriodStartYear - sYear) 100
  let sCent := Int.tdiv (currentPeriodStartYear - (sYear + sTens)) 100
  let currentPeriodEndYear := currentPeriodStartYear + period
  let currentPeriodEndYear :=
    if currentPeriodEndYear > endYear then endYear else currentPeriodEndYear
  let eMonth := December
  let eYear := Int.tmod currentPeriodEndYear 10
  let eTens := Int.tmod (currentPeriodEndYear - eYear) 100
  let eCent := Int.tdiv (currentPeriodEndYear - (eYear + eTens)) 100
  let eYear :=
    if currentPeriodEndYear - currentPeriodStartYear = period then eYear - 1 else eYear
  { sCent := sCent, sTens := sTens, sYear := sYear, sMonth := sMonth,
    eCent := eCent, eTens := eTens, eYear := eYear, eMonth := eMonth }

/-- One iteration of the loop body of `downloadIntervals`: the value of
`currentPeriodEndYear` assigned to the cursor at the end of the body. -/
def nextCursor (endYear period currentPeriodStartYear : Int) : Int :=
  let currentPeriodEndYear := currentPeriodStartYear + period
  if currentPeriodEndYear > endYear then endYear else currentPeriodEndYear

/-- The loop `for range int(numberOfIntervals)` of `downloadIntervals`, run for
`n` iterations from the given cursor; the appended intervals in order. -/
def intervalsLoop (endYear period : Int) : Nat → Int → List downloadInterval
  | 0, _ => []
  | n + 1, cursor =>
    intervalAt endYear period cursor ::
      intervalsLoop endYear period n (nextCursor endYear period cursor)

/-- The method `downloadIntervals` of `src/dst_interval.go`.  A non-positive
loop bound runs the loop zero times (`Int.toNat`). -/
def downloadIntervals (startYear endYear period : Int) : List downloadInterval :=
  intervalsLoop endYear period (numberOfIntervals startYear endYear period).toNat startYear

/-- Range in which the model of `downloadIntervals` coincides with the code:
magnitude below `2 ^ 52 = 4503599627370496`.  Below it `float64(x)` is exact
and sums and differences of two such values fit in 64 bits, and in 53 bits of
mantissa. -/
def inModelRange (x : Int) : Prop := -4503599627370496 < x ∧ x < 4503599627370496

instance (x : Int) : Decidable (inModelRange x) := by
  unfold inModelRange; infer_instance

/-- Year that the start date code of an interval decodes to. -/
def startOf (d : downloadInterval) : Int := d.sCent * 100 + d.sTens + d.sYear

/-- Year that the end date code of an interval decodes to. -/
def endOf (d : downloadInterval) : Int := d.eCent * 100 + d.eTens + d.eYear

/-- Decoded year span of an interval. -/
def span (d : downloadInterval) : Int × Int := (startOf d, endOf d)

/-- Well-formed date code: the tens component is a multiple of 10 in `[0, 90]`
and the unit component is in `[0, 9]`. -/
def wellFormedCode (_cent tens unit : Int) : Prop :=
  10 ∣ tens ∧ 0 ≤ tens ∧ tens ≤ 90 ∧ 0 ≤ unit ∧ unit ≤ 9

instance (c t u : Int) : Decidable (wellFormedCode c t u) := by
  unfold wellFormedCode; infer_instance

/-- The century / tens / unit encoding of a year, as computed inline (for the
cursor and for the tentative end year) in the loop body of `downloadIntervals`. -/
def dateCode (year : Int) : Int × Int × Int :=
  let unit := Int.tmod year 10
  let tens := Int.tmod (year - unit) 100
  let cent := Int.tdiv (year - (unit + tens)) 100
  (cent, tens, unit)

/-- Decoding of a date code: `century * 100 + tens + unit`. -/
def decode (code : Int × Int × Int) : Int := code.1 * 100 + code.2.1 + code.2.2

/-- The claimed cover property of a list of intervals for `[startYear, endYear]`:
the first span starts at `startYear`, the last span ends at `endYear`, every
year of the range lies in exactly one span, and the spans are in increasing
order. -/
def coversExactly (l : List downloadInterval) (startYear endYear : Int) : Prop :=
  l.head?.map startOf = some startYear ∧
  l.getLast?.map endOf = some endYear ∧
  (∀ y : Int, startYear ≤ y → y ≤ endYear →
    ∃! i : Fin l.length, startOf (l.get i) ≤ y ∧ y ≤ endOf (l.get i)) ∧
  List.Chain' (fun a b => endOf a < startOf b) l

/-! ## `src/dst.go` -/

/-- The fields of Go `url.URL` that `downloadUrl` sets. -/
structure URL where
  Scheme : String
  Host : String
  Path : String
  RawQuery : String
deriving DecidableEq, Repr

/-- Go `[]byte`. -/
abbrev Bytes := List UInt8

/-- Go `error` values, identified by their message. -/
abbrev error := String

/-- The struct `dst` of `src/dst.go`. -/
structure dst where
  period : Int
deriving DecidableEq, Repr

/-- The constructor `New`: the 25-year maximum download period. -/
def New : dst := { period := 25 }

/-- The verb `%d` of `fmt.Sprintf` on an integer: its decimal rendering, with a
leading minus sign for negative values. -/
def fmtD (n : Int) : String := toString n

/-- The method `downloadUrl` of `src/dst.go`. -/
def downloadUrl (sCent sTens sYear : Int) (sMonth : Month)
    (eCent eTens eYear : Int) (eMonth : Month) : URL :=
  let queryParams : List String := [
    "SCent=" ++ fmtD sCent,
    "STens=" ++ fmtD sTens,
    "SYear=" ++ fmtD sYear,
    "SMonth=" ++ fmtD sMonth,
    "ECent=" ++ fmtD eCent,
    "ETens=" ++ fmtD eTens,
    "EYear=" ++ fmtD eYear,
    "EMonth=" ++ fmtD eMonth,
    "Image+Type=" ++ "GIF",
    "COLOR=" ++ "COLOR",
    "AE+Sensitivity=" ++ fmtD 0,
    "Dst+Sensitivity=" ++ fmtD 0,
    "Output=" ++ "DST",
    "Out+format=" ++ "WDC" ]
  { Scheme := "https",
    Host := "wdc.kugi.kyoto-u.ac.jp",
    Path := "/cgi-bin/dstae-cgi",
    RawQuery := String.intercalate "&" queryParams }

/-- The URL that `Fetch` builds for one download interval. -/
def urlOf (d : downloadInterval) : URL :=
  downloadUrl d.sCent d.sTens d.sYear d.sMonth d.eCent d.eTens d.eYear d.eMonth

/-- The loop `for _, downloadInterval := range downloadIntervals` of `Fetch`,
from the accumulator `dstData` and the collaborator state `w`.  The
collaborator `get` stands for `requests.Get`.  The result is the pair returned
by `Fetch` and the collaborator state afterwards. -/
def fetchLoop {σ : Type} (get : URL → σ → Except error Bytes × σ) :
    List downloadInterval → Bytes → σ → (Bytes × Option error) × σ
  | [], dstData, w => ((dstData, none), w)
  | downloadInterval :: rest, dstData, w =>
    match get (urlOf downloadInterval) w with
    | (Except.error err, w1) => ((dstData, some err), w1)
    | (Except.ok body, w1) => fetchLoop get rest (dstData ++ body) w1

/-- The method `Fetch` of `src/dst.go`, with the current year and the HTTP
collaborator as parameters.  The first component is the returned pair
`([]byte, error)`, with `none` for a `nil` error. -/
def Fetch {σ : Type} (self : dst) (currentYear : Int)
    (get : URL → σ → Except error Bytes × σ) (startYear endYear : Int) (w : σ) :
    (Bytes × Option error) × σ :=
  let dstData : Bytes := []
  if startYear < 1957 then
    ((dstData,
      some ("expected \x27startYear\x27 to be greater than 1957, got " ++ fmtD startYear)), w)
  else if endYear > currentYear then
    ((dstData,
      some ("expected \x27endYear\x27 to be smaller than " ++ fmtD currentYear ++ ", got "
        ++ fmtD endYear)), w)
  else
    fetchLoop get (downloadIntervals startYear endYear self.period) dstData w

/-- The method `FetchAll` of `src/dst.go`. -/
def FetchAll {σ : Type} (self : dst) (currentYear : Int)
    (get : URL → σ → Except error Bytes × σ) (w : σ) : (Bytes × Option error) × σ :=
  let startYear := 1957
  let endYear := currentYear
  Fetch self currentYear get startYear endYear w

/-- A collaborator given by a function of the URL, whose state is the list of
the URLs requested so far, in order. -/
def recording (fetch : URL → Except error Bytes) :
    URL → List URL → Except error Bytes × List URL :=
  fun u log => (fetch u, log ++ [u])

/-- The body of a successful fetch, and no bytes for a failed one. -/
def bodyOf : Except error Bytes → Bytes
  | Except.ok body => body
  | Except.error _ => []


/-- The error of a failed fetch, and `none` (a `nil` error) for a successful
one. -/
def errorOf : Except error Bytes → Option error
  | Except.ok _ => none
  | Except.error err => some err

/-- Decidable equality of collaborator results. -/
instance : DecidableEq (Except error Bytes)
  | Except.ok x, Except.ok y =>
    if h : x = y then isTrue (by rw [h]) else isFalse (fun h1 => h (Except.ok.inj h1))
  | Except.error x, Except.error y =>
    if h : x = y then isTrue (by rw [h]) else isFalse (fun h1 => h (Except.error.inj h1))
  | Except.ok _, Except.error _ => isFalse (fun h => by cases h)
  | Except.error _, Except.ok _ => isFalse (fun h => by cases h)

/-- A collaborator function of the URL that fails with `err` on the URL whose
raw query is `q` and returns `body` on every other URL. -/
def failOn (q : String) (err : error) (body : Bytes) : URL → Except error Bytes :=
  fun u => if u.RawQuery = q then Except.error err else Except.ok body

/-- The raw query that `Fetch` builds for January 1982 to December 2006. -/
def query1982to2006 : String :=
  "SCent=19&STens=80&SYear=2&SMonth=1&ECent=20&ETens=0&EYear=6&EMonth=12" ++
  "&Image+Type=GIF&COLOR=COLOR&AE+Sensitivity=0&Dst+Sensitivity=0&Output=DST&Out+format=WDC"

/-- The walk of the partitioner as the specification words it, on years: the
start year of a step is the cursor, the tentative end year is `cursor + period`
clamped to `endYear`, a step that was not clamped has its end year decremented
by 1, and the cursor advances to the tentative end year. -/
def partitionWalk (endYear period : Int) : Nat → Int → List (Int × Int)
  | 0, _ => []
  | n + 1, cursor =>
    let tentative := cursor + period
    let clamped := decide (tentative > endYear)
    let tentativeEnd := if clamped then endYear else tentative
    let stepEnd := if clamped then tentativeEnd else tentativeEnd - 1
    (cursor, stepEnd) :: partitionWalk endYear period n tentativeEnd

/-- The partitioner of the specification, on years: the number of steps is the
ceiling of `(endYear - startYear) / period`, forced to 1 when
`endYear = startYear`, and the steps are those of `partitionWalk`. -/
def partitionSpec (startYear endYear period : Int) : List (Int × Int) :=
  let count := if endYear = startYear then 1 else ceilDiv (endYear - startYear) period
  partitionWalk endYear period count.toNat startYear

/-! ## `src/internal/requests/requests.go` -/

/-- Outcomes of the three operations that `requests.Get` performs: `http.Get`
(`none` when it returns a response), `io.ReadAll` on the response body, and
`Body.Close` (`none` when closing succeeds). -/
structure Transport where
  request : Option error
  readAll : Except error Bytes
  close : Option error

/-- The function `Get` of `src/internal/requests/requests.go`.  Its results are
unnamed, so each `return` statement fixes the returned pair; the deferred
closure runs afterwards and assigns the outcome of `Body.Close` to the local
variable `err` only.  The first component is the returned pair `([]byte, error)`,
the second the final value of the local variable `err`. -/
def Get (t : Transport) : (Bytes × Option error) × Option error :=
  let err := t.request
  match err with
  | some e => (([], some e), err)
  | none =>
    match t.readAll with
    | Except.error e =>
      let results : Bytes × Option error := ([], some e)
      let err := t.close
      (results, err)
    | Except.ok body =>
      let results : Bytes × Option error := (body, none)
      let err := t.close
      (results, err)

/-! ## Lemmas -/

theorem decode_dateCode (y : Int) : decode (dateCode y) = y := by
  simp only [decode, dateCode]
  have h1 := Int.tmod_add_tdiv y 10
  have h2 := Int.tmod_add_tdiv (y - Int.tmod y 10) 100
  have h3 : y - (Int.tmod y 10 + Int.tmod (y - Int.tmod y 10) 100)
      = 100 * Int.tdiv (y - Int.tmod y 10) 100 := by omega
  rw [h3, Int.mul_tdiv_cancel_left _ (by decide)]
  omega

theorem startOf_intervalAt (e p c : Int) : startOf (intervalAt e p c) = c := by
  have := decode_dateCode c
  simpa [decode, dateCode, startOf, intervalAt] using this

theorem endOf_intervalAt (e p c : Int) :
    endOf (intervalAt e p c) =
      nextCursor e p c - (if nextCursor e p c - c = p then 1 else 0) := by
  have := decode_dateCode (nextCursor e p c)
  simp only [decode, dateCode] at this
  simp only [endOf, intervalAt, nextCursor] at *
  split_ifs at * <;> omega

theorem ceilDiv_spec (a p : Int) (hp : 0 < p) :
    (ceilDiv a p - 1) * p < a ∧ a ≤ ceilDiv a p * p := by
  unfold ceilDiv
  rw [Int.fdiv_eq_ediv _ (le_of_lt hp)]
  have h1 := Int.ediv_add_emod (-a) p
  have h2 := Int.emod_nonneg (-a) (ne_of_gt hp)
  have h3 := Int.emod_lt_of_pos (-a) hp
  constructor <;> nlinarith

theorem ceilDiv_eq_ceil (a p : Int) (hp : 0 < p) : ceilDiv a p = ⌈(a : ℚ) / (p : ℚ)⌉ := by
  symm
  rw [Int.ceil_eq_iff]
  obtain ⟨h1, h2⟩ := ceilDiv_spec a p hp
  have hp' : (0 : ℚ) < p := by exact_mod_cast hp
  constructor
  · rw [lt_div_iff₀ hp']
    exact_mod_cast h1
  · rw [div_le_iff₀ hp']
    exact_mod_cast h2

theorem length_intervalsLoop (e p : Int) (n : Nat) (c : Int) :
    (intervalsLoop e p n c).length = n := by
  induction n generalizing c with
  | zero => rfl
  | succ n ih => simp [intervalsLoop, ih]


theorem nextCursor_of_le (e p c : Int) (h : c + p ≤ e) : nextCursor e p c = c + p := by
  simp only [nextCursor]
  split_ifs <;> omega

theorem getElem_intervalsLoop (e p : Int) (hp : 1 ≤ p) (n : Nat) (c : Int)
    (hc : c + ((n : Int) - 1) * p ≤ e) (i : Nat) (hi : i < (intervalsLoop e p n c).length) :
    (intervalsLoop e p n c)[i] = intervalAt e p (c + (i : Int) * p) := by
  induction n generalizing c i with
  | zero => simp [intervalsLoop] at hi
  | succ n ih =>
    cases i with
    | zero => simp [intervalsLoop]
    | succ i =>
      simp only [intervalsLoop, List.getElem_cons_succ]
      have hi' : i < n := by
        simp only [intervalsLoop, List.length_cons, length_intervalsLoop] at hi
        omega
      have hn : (1 : Int) ≤ n := by omega
      have hstep : c + p ≤ e := by
        push_cast at hc
        nlinarith
      have hnext := nextCursor_of_le e p c hstep
      have hc' : nextCursor e p c + ((n : Int) - 1) * p ≤ e := by
        rw [hnext]; push_cast at hc; nlinarith
      rw [ih (nextCursor e p c) hc' i (by rw [length_intervalsLoop]; exact hi'), hnext]
      congr 1
      push_cast
      ring

theorem numberOfIntervals_spec (s e p : Int) (hp : 1 ≤ p) (hse : s ≤ e) :
    1 ≤ numberOfIntervals s e p ∧
      s + (numberOfIntervals s e p - 1) * p ≤ e ∧
      e ≤ s + numberOfIntervals s e p * p := by
  obtain ⟨h1, h2⟩ := ceilDiv_spec (e - s) p (by omega)
  simp only [numberOfIntervals]
  split_ifs with h0
  · rw [h0] at h1 h2
    refine ⟨le_refl _, by omega, by omega⟩
  · have hpos : 1 ≤ ceilDiv (e - s) p := by
      by_contra hneg
      have : ceilDiv (e - s) p ≤ -1 := by omega
      nlinarith
    refine ⟨hpos, by nlinarith, by nlinarith⟩

theorem length_downloadIntervals (s e p : Int) :
    (downloadIntervals s e p).length = (numberOfIntervals s e p).toNat := by
  simp [downloadIntervals, length_intervalsLoop]

theorem getElem_downloadIntervals (s e p : Int) (hp : 1 ≤ p) (hse : s ≤ e) (i : Nat)
    (hi : i < (downloadIntervals s e p).length) :
    (downloadIntervals s e p)[i] = intervalAt e p (s + (i : Int) * p) := by
  obtain ⟨h1, h2, _⟩ := numberOfIntervals_spec s e p hp hse
  unfold downloadIntervals
  apply getElem_intervalsLoop e p hp
  rw [Int.toNat_of_nonneg (by omega)]
  exact h2


theorem fetchLoop_recording_ok (fetch : URL → Except error Bytes) (l : List downloadInterval)
    (hok : ∀ d ∈ l, ∃ body, fetch (urlOf d) = Except.ok body) (dstData : Bytes)
    (log : List URL) :
    fetchLoop (recording fetch) l dstData log =
      ((dstData ++ (l.map (fun d => bodyOf (fetch (urlOf d)))).flatten, none),
        log ++ l.map urlOf) := by
  induction l generalizing dstData log with
  | nil => simp [fetchLoop]
  | cons d rest ih =>
    obtain ⟨body, hbody⟩ := hok d (List.mem_cons_self _ _)
    have hrest : ∀ x ∈ rest, ∃ body, fetch (urlOf x) = Except.ok body :=
      fun x hx => hok x (List.mem_cons_of_mem _ hx)
    simp only [fetchLoop, recording, hbody]
    have := ih hrest (dstData ++ body) (log ++ [urlOf d])
    simp only [recording] at this
    rw [this]
    simp [bodyOf, hbody]

theorem fetchLoop_recording_fail (fetch : URL → Except error Bytes)
    (pre : List downloadInterval) (d : downloadInterval) (post : List downloadInterval)
    (err : error)
    (hok : ∀ x ∈ pre, ∃ body, fetch (urlOf x) = Except.ok body)
    (hfail : fetch (urlOf d) = Except.error err) (dstData : Bytes) (log : List URL) :
    fetchLoop (recording fetch) (pre ++ d :: post) dstData log =
      ((dstData ++ (pre.map (fun x => bodyOf (fetch (urlOf x)))).flatten, some err),
        log ++ pre.map urlOf ++ [urlOf d]) := by
  induction pre generalizing dstData log with
  | nil => simp [fetchLoop, recording, hfail]
  | cons x rest ih =>
    obtain ⟨body, hbody⟩ := hok x (List.mem_cons_self _ _)
    have hrest : ∀ y ∈ rest, ∃ body, fetch (urlOf y) = Except.ok body :=
      fun y hy => hok y (List.mem_cons_of_mem _ hy)
    have := ih hrest (dstData ++ body) (log ++ [urlOf x])
    simp only [recording] at this
    rw [List.cons_append]
    simp only [fetchLoop, recording, hbody]
    rw [this]
    simp [bodyOf, hbody]

theorem fetchLoop_never_fails {σ : Type} (get : URL → σ → Except error Bytes × σ)
    (hget : ∀ u w, ∃ body, (get u w).1 = Except.ok body) (l : List downloadInterval)
    (dstData : Bytes) (w : σ) : (fetchLoop get l dstData w).1.2 = none := by
  induction l generalizing dstData w with
  | nil => rfl
  | cons d rest ih =>
    obtain ⟨body, hbody⟩ := hget (urlOf d) w
    rcases hg : get (urlOf d) w with ⟨r, w1⟩
    rw [hg] at hbody
    simp only at hbody
    subst hbody
    simp only [fetchLoop, hg]
    exact ih _ _

/-! ## Claims -/

/-- C1 (defect in the code): on `downloadIntervals(1957, 1982, 25)` the period
divides `endYear - startYear`, the only step is not clamped, its end year is
decremented, and the returned list is the single span `[1957, 1981]`: the year
1982 is not covered, so the list does not cover `[1957, 1982]` exactly. -/
theorem downloadIntervals_1957_1982_drops_endYear :
    (downloadIntervals 1957 1982 25).map span = [(1957, 1981)] ∧
    ¬ coversExactly (downloadIntervals 1957 1982 25) 1957 1982 :=
  ⟨by decide, fun h => absurd h.2.1 (by decide)⟩

/-- C2: for `period ≥ 1` and `startYear ≤ endYear`, all of magnitude below
`2 ^ 52`, any two consecutive intervals returned by `downloadIntervals` are
contiguous: the decoded start year of the later one is the decoded end year of
the earlier one plus 1. -/
theorem downloadIntervals_contiguous (startYear endYear period : Int)
    (hp : 1 ≤ period) (hse : startYear ≤ endYear)
    (_hs : inModelRange startYear) (_he : inModelRange endYear)
    (_hpr : inModelRange period) (i : Nat)
    (hi : i + 1 < (downloadIntervals startYear endYear period).length) :
    startOf ((downloadIntervals startYear endYear period)[i + 1]) =
      endOf ((downloadIntervals startYear endYear period)[i]) + 1 := by
  obtain ⟨h1, h2, _⟩ := numberOfIntervals_spec startYear endYear period hp hse
  rw [getElem_downloadIntervals _ _ _ hp hse, getElem_downloadIntervals _ _ _ hp hse,
    startOf_intervalAt, endOf_intervalAt]
  rw [length_downloadIntervals] at hi
  have hi' : ((i : Int) + 1) + 1 ≤ numberOfIntervals startYear endYear period := by omega
  have hstep : startYear + (i : Int) * period + period ≤ endYear := by nlinarith
  rw [nextCursor_of_le _ _ _ hstep]
  simp
  ring

/-- Witness of C2 on `downloadIntervals(1957, 2020, 25)`, first and second
interval. -/
theorem downloadIntervals_contiguous_witness :
    startOf ((downloadIntervals 1957 2020 25)[1]) =
      endOf ((downloadIntervals 1957 2020 25)[0]) + 1 :=
  downloadIntervals_contiguous 1957 2020 25 (by decide) (by decide)
    (by decide) (by decide) (by decide) 0 (by decide)

set_option maxRecDepth 100000 in
/-- C3 as stated fails: on `Fetch(1957, 2020)` with current year 2024 and a
collaborator that returns the body `[7]` except on the second URL, where it
fails with `boom`, `Fetch` returns the error together with the non-empty bytes
`[7]` accumulated from the first interval. -/
theorem Fetch_error_bytes_not_empty :
    (downloadIntervals 1957 2020 25).map span = [(1957, 1981), (1982, 2006), (2007, 2020)] ∧
    failOn query1982to2006 "boom" [7] (urlOf ((downloadIntervals 1957 2020 25)[0])) =
      Except.ok [7] ∧
    failOn query1982to2006 "boom" [7] (urlOf ((downloadIntervals 1957 2020 25)[1])) =
      Except.error "boom" ∧
    (Fetch New 2024 (recording (failOn query1982to2006 "boom" [7])) 1957 2020 []).1 =
      ([7], some "boom") ∧
    (Fetch New 2024 (recording (failOn query1982to2006 "boom" [7])) 1957 2020 []).1.1 ≠ [] := by
  refine ⟨by decide, by decide, by decide, by decide, by decide⟩

/-- C3 amended: for a valid range, if the collaborator fails on the interval of
index `k` after succeeding on the earlier ones, `Fetch` returns that error, and
the bytes returned with it are the concatenation, in order, of the bodies of
the intervals before index `k`; exactly the URLs up to index `k` are
requested. -/
theorem Fetch_error_returns_accumulated (currentYear startYear endYear : Int)
    (fetch : URL → Except error Bytes) (k : Nat) (err : error)
    (hs : 1957 ≤ startYear) (hec : endYear ≤ currentYear)
    (hk : k < (downloadIntervals startYear endYear 25).length)
    (hok : ∀ d ∈ (downloadIntervals startYear endYear 25).take k,
      ∃ body, fetch (urlOf d) = Except.ok body)
    (hfail : fetch (urlOf ((downloadIntervals startYear endYear 25)[k])) = Except.error err)
    (log : List URL) :
    Fetch New currentYear (recording fetch) startYear endYear log =
      (((((downloadIntervals startYear endYear 25).take k).map
          (fun d => bodyOf (fetch (urlOf d)))).flatten, some err),
        log ++ ((downloadIntervals startYear endYear 25).take (k + 1)).map urlOf) := by
  have hsplit : downloadIntervals startYear endYear 25 =
      (downloadIntervals startYear endYear 25).take k ++
        (downloadIntervals startYear endYear 25)[k] ::
          (downloadIntervals startYear endYear 25).drop (k + 1) := by
    rw [List.getElem_cons_drop _ _ hk, List.take_append_drop]
  have hloop := fetchLoop_recording_fail fetch _ _
    ((downloadIntervals startYear endYear 25).drop (k + 1)) err hok hfail [] log
  rw [← hsplit] at hloop
  have htake : (downloadIntervals startYear endYear 25).take (k + 1) =
      (downloadIntervals startYear endYear 25).take k ++
        [(downloadIntervals startYear endYear 25)[k]] := by
    rw [List.take_succ, List.getElem?_eq_getElem hk]
    rfl
  simp only [Fetch, New, if_neg (not_lt.mpr hs), if_neg (not_lt.mpr hec), gt_iff_lt]
  rw [hloop, htake]
  simp only [List.nil_append, List.map_append, List.map_cons, List.map_nil, List.append_assoc]

set_option maxRecDepth 100000 in
/-- Witness of the amended C3: `Fetch(1957, 2020)` with current year 2024 and
the collaborator failing on the second URL. -/
theorem Fetch_error_returns_accumulated_witness :
    Fetch New 2024 (recording (failOn query1982to2006 "boom" [7])) 1957 2020 [] =
      (((((downloadIntervals 1957 2020 25).take 1).map
          (fun d => bodyOf (failOn query1982to2006 "boom" [7] (urlOf d)))).flatten,
          some "boom"),
        [] ++ ((downloadIntervals 1957 2020 25).take (1 + 1)).map urlOf) :=
  Fetch_error_returns_accumulated 2024 1957 2020 (failOn query1982to2006 "boom" [7]) 1 "boom"
    (by decide) (by decide) (by decide)
    (by
      intro d hd
      have hd' : d = (downloadIntervals 1957 2020 25)[0] := by
        have : (downloadIntervals 1957 2020 25).take 1 = [(downloadIntervals 1957 2020 25)[0]] := by
          decide
        rw [this] at hd
        simpa using hd
      subst hd'
      exact ⟨[7], by decide⟩)
    (by decide) []

/-- C4: with the current year given and a collaborator that never fails,
`Fetch(startYear, endYear)` returns an error if and only if `startYear < 1957`
or `endYear > currentYear`; in particular `Fetch(1957, currentYear)` returns no
error. -/
theorem Fetch_error_iff {σ : Type} (self : dst) (currentYear : Int)
    (get : URL → σ → Except error Bytes × σ)
    (hget : ∀ u w, ∃ body, (get u w).1 = Except.ok body)
    (startYear endYear : Int) (w : σ) :
    ((Fetch self currentYear get startYear endYear w).1.2 ≠ none ↔
      (startYear < 1957 ∨ endYear > currentYear)) ∧
    (Fetch self currentYear get 1957 currentYear w).1.2 = none := by
  constructor
  · by_cases h1 : startYear < 1957
    · simp [Fetch, h1]
    · by_cases h2 : endYear > currentYear
      · simp [Fetch, h1, h2]
      · simp only [Fetch, if_neg h1, if_neg h2, h1, h2, or_self, iff_false, not_not]
        exact fetchLoop_never_fails get hget _ _ _
  · simp only [Fetch, lt_self_iff_false, gt_iff_lt, if_false]
    exact fetchLoop_never_fails get hget _ _ _

/-- Witness of C4: the recording collaborator that returns an empty body on
every URL, on `Fetch(1900, 2024)` with current year 2024. -/
theorem Fetch_error_iff_witness :
    ((Fetch New 2024 (recording (fun _ => Except.ok [])) 1900 2024 []).1.2 ≠ none ↔
      ((1900 : Int) < 1957 ∨ (2024 : Int) > 2024)) ∧
    (Fetch New 2024 (recording (fun _ => Except.ok [])) 1957 2024 []).1.2 = none :=
  Fetch_error_iff New 2024 (recording (fun _ => Except.ok [])) (fun _ _ => ⟨[], rfl⟩)
    1900 2024 []

/-- C5: for `1957 ≤ startYear` and `endYear ≤ currentYear`, if the collaborator
succeeds on the URL of every interval of `downloadIntervals(startYear, endYear,
25)`, then `Fetch` returns no error, its bytes are the concatenation in list
order of the bodies fetched for `downloadUrl` of each interval, and the URLs
requested are exactly those of the intervals, once each, in list order. -/
theorem Fetch_concatenates (currentYear startYear endYear : Int)
    (fetch : URL → Except error Bytes)
    (hs : 1957 ≤ startYear) (hec : endYear ≤ currentYear)
    (hok : ∀ d ∈ downloadIntervals startYear endYear 25,
      ∃ body, fetch (urlOf d) = Except.ok body)
    (log : List URL) :
    Fetch New currentYear (recording fetch) startYear endYear log =
      ((((downloadIntervals startYear endYear 25).map
          (fun d => bodyOf (fetch (downloadUrl d.sCent d.sTens d.sYear d.sMonth
            d.eCent d.eTens d.eYear d.eMonth)))).flatten, none),
        log ++ (downloadIntervals startYear endYear 25).map
          (fun d => downloadUrl d.sCent d.sTens d.sYear d.sMonth
            d.eCent d.eTens d.eYear d.eMonth)) := by
  simp only [Fetch, New, if_neg (not_lt.mpr hs), if_neg (not_lt.mpr hec), gt_iff_lt]
  rw [fetchLoop_recording_ok fetch _ hok]
  simp only [List.nil_append]
  rfl

/-- Witness of C5: `Fetch(1957, 2020)` with current year 2024 and a
collaborator that returns the body `[7]` on every URL. -/
theorem Fetch_concatenates_witness :
    Fetch New 2024 (recording (fun _ => Except.ok [7])) 1957 2020 [] =
      ((((downloadIntervals 1957 2020 25).map
          (fun d => bodyOf ((fun _ => Except.ok [7]) (downloadUrl d.sCent d.sTens d.sYear
            d.sMonth d.eCent d.eTens d.eYear d.eMonth)))).flatten, none),
        [] ++ (downloadIntervals 1957 2020 25).map
          (fun d => downloadUrl d.sCent d.sTens d.sYear d.sMonth
            d.eCent d.eTens d.eYear d.eMonth)) :=
  Fetch_concatenates 2024 1957 2020 (fun _ => Except.ok [7]) (by decide) (by decide)
    (fun _ _ => ⟨[7], rfl⟩) []

/-- C6: for all integer arguments, `downloadUrl` has scheme `https`, path
`/cgi-bin/dstae-cgi`, and a raw query that is the `&`-join, in this order, of
`SCent`, `STens`, `SYear`, `SMonth`, `ECent`, `ETens`, `EYear`, `EMonth` (each
as name, `=`, decimal value) followed by the fixed fields; the second conjunct gives
the same query as one string. -/
theorem downloadUrl_shape (sCent sTens sYear : Int) (sMonth : Month)
    (eCent eTens eYear : Int) (eMonth : Month) :
    (downloadUrl sCent sTens sYear sMonth eCent eTens eYear eMonth).Scheme = "https" ∧
    (downloadUrl sCent sTens sYear sMonth eCent eTens eYear eMonth).Path =
      "/cgi-bin/dstae-cgi" ∧
    (downloadUrl sCent sTens sYear sMonth eCent eTens eYear eMonth).RawQuery =
      String.intercalate "&"
        ["SCent=" ++ fmtD sCent, "STens=" ++ fmtD sTens, "SYear=" ++ fmtD sYear,
         "SMonth=" ++ fmtD sMonth, "ECent=" ++ fmtD eCent, "ETens=" ++ fmtD eTens,
         "EYear=" ++ fmtD eYear, "EMonth=" ++ fmtD eMonth,
         "Image+Type=GIF", "COLOR=COLOR", "AE+Sensitivity=0", "Dst+Sensitivity=0",
         "Output=DST", "Out+format=WDC"] ∧
    (downloadUrl sCent sTens sYear sMonth eCent eTens eYear eMonth).RawQuery =
      "SCent=" ++ fmtD sCent ++ "&STens=" ++ fmtD sTens ++ "&SYear=" ++ fmtD sYear ++
      "&SMonth=" ++ fmtD sMonth ++ "&ECent=" ++ fmtD eCent ++ "&ETens=" ++ fmtD eTens ++
      "&EYear=" ++ fmtD eYear ++ "&EMonth=" ++ fmtD eMonth ++
      "&Image+Type=GIF&COLOR=COLOR&AE+Sensitivity=0&Dst+Sensitivity=0&Output=DST&Out+format=WDC" := by
  have e1 : "Image+Type=" ++ "GIF" = "Image+Type=GIF" := by decide
  have e2 : "COLOR=" ++ "COLOR" = "COLOR=COLOR" := by decide
  have e3 : "AE+Sensitivity=" ++ fmtD 0 = "AE+Sensitivity=0" := by decide
  have e4 : "Dst+Sensitivity=" ++ fmtD 0 = "Dst+Sensitivity=0" := by decide
  have e5 : "Output=" ++ "DST" = "Output=DST" := by decide
  have e6 : "Out+format=" ++ "WDC" = "Out+format=WDC" := by decide
  refine ⟨rfl, rfl, ?_, ?_⟩
  · simp only [downloadUrl, e1, e2, e3, e4, e5, e6]
  · simp only [downloadUrl, e1, e2, e3, e4, e5, e6, String.intercalate, String.intercalate.go]
    apply String.ext
    simp only [String.data_append, List.append_assoc]
    rfl

/-- C7 (defect in the code): on `downloadIntervals(1965, 2000, 25)` the first
step is a full period ending at 1990, whose unit digit 0 is decremented
without a borrow: the end date code is `(19, 90, -1)`, which is not well formed,
and the query built from it carries `EYear=-1`. -/
theorem downloadIntervals_1965_2000_malformed_end_code :
    (downloadIntervals 1965 2000 25).map (fun d => (d.eCent, d.eTens, d.eYear)) =
      [(19, 90, -1), (20, 0, 0)] ∧
    ¬ wellFormedCode 19 90 (-1) ∧
    (urlOf ((downloadIntervals 1965 2000 25)[0])).RawQuery =
      "SCent=19&STens=60&SYear=5&SMonth=1&ECent=19&ETens=90&EYear=-1&EMonth=12" ++
      "&Image+Type=GIF&COLOR=COLOR&AE+Sensitivity=0&Dst+Sensitivity=0&Output=DST&Out+format=WDC" :=
  ⟨by decide, by decide, by decide⟩

/-- C8 (defect in the code): with current year 2032, `FetchAll` is
`Fetch(1957, 2032)`, it requests the URLs of `downloadIntervals(1957, 2032, 25)`,
and these decode to `[1957, 1981]`, `[1982, 2006]`, `[2007, 2031]`: the last
request ends in 2031, not in the current year 2032. -/
theorem FetchAll_2032_stops_at_2031 :
    FetchAll New 2032 (recording (fun _ => Except.ok [])) [] =
      Fetch New 2032 (recording (fun _ => Except.ok [])) 1957 2032 [] ∧
    (FetchAll New 2032 (recording (fun _ => Except.ok [])) []).2 =
      (downloadIntervals 1957 2032 25).map urlOf ∧
    (downloadIntervals 1957 2032 25).map span =
      [(1957, 1981), (1982, 2006), (2007, 2031)] := by
  refine ⟨rfl, ?_, by decide⟩
  have h := fetchLoop_recording_ok (fun _ => Except.ok []) (downloadIntervals 1957 2032 25)
    (fun _ _ => ⟨[], rfl⟩) [] []
  simp only [FetchAll, Fetch, New]
  rw [if_neg (by decide), if_neg (by decide), h]
  simp

/-- C9: the encoding `unit = y mod 10`, `tens = (y - unit) mod 100`,
`century = (y - unit - tens) / 100` round-trips for every year `y` (in
particular for `1957 ≤ y ≤ currentYear`): `century * 100 + tens + unit = y`.
It is the encoding that the loop body of `downloadIntervals` applies to the
cursor and to the tentative end year before the adjustment. -/
theorem dateCode_round_trip (year endYear period cursor : Int) :
    decode (dateCode year) = year ∧
    ((intervalAt endYear period cursor).sCent, (intervalAt endYear period cursor).sTens,
      (intervalAt endYear period cursor).sYear) = dateCode cursor ∧
    ((intervalAt endYear period cursor).eCent, (intervalAt endYear period cursor).eTens,
      (intervalAt endYear period cursor).eYear +
        (if nextCursor endYear period cursor - cursor = period then 1 else 0)) =
      dateCode (nextCursor endYear period cursor) := by
  refine ⟨decode_dateCode year, rfl, ?_⟩
  simp only [intervalAt, nextCursor, dateCode, Prod.mk.injEq, true_and]
  split_ifs <;> omega

/-- C10: for `period ≥ 1` and `startYear ≤ endYear`, all of magnitude below
`2 ^ 52`, the length of the list returned by `downloadIntervals` is the ceiling
of `(endYear - startYear) / period`, except that it is 1 when
`endYear = startYear`. -/
theorem downloadIntervals_length (startYear endYear period : Int)
    (hp : 1 ≤ period) (hse : startYear ≤ endYear)
    (_hs : inModelRange startYear) (_he : inModelRange endYear)
    (_hpr : inModelRange period) :
    ((downloadIntervals startYear endYear period).length : Int) =
      if endYear = startYear then 1
      else ⌈((endYear : ℚ) - (startYear : ℚ)) / (period : ℚ)⌉ := by
  obtain ⟨h1, _, _⟩ := numberOfIntervals_spec startYear endYear period hp hse
  rw [length_downloadIntervals, Int.toNat_of_nonneg (by omega)]
  have hc := ceilDiv_eq_ceil (endYear - startYear) period (by omega)
  push_cast at hc
  split_ifs with h
  · subst h
    simp [numberOfIntervals, ceilDiv]
  · rw [← hc]
    obtain ⟨h3, h4⟩ := ceilDiv_spec (endYear - startYear) period (by omega)
    simp only [numberOfIntervals]
    split_ifs with h0
    · rw [h0] at h4
      omega
    · rfl

/-- Witness of C10 on `downloadIntervals(1957, 2006, 25)`. -/
theorem downloadIntervals_length_witness :
    ((downloadIntervals 1957 2006 25).length : Int) =
      if (2006 : Int) = 1957 then 1
      else ⌈(((2006 : Int) : ℚ) - ((1957 : Int) : ℚ)) / ((25 : Int) : ℚ)⌉ :=
  downloadIntervals_length 1957 2006 25 (by decide) (by decide)
    (by decide) (by decide) (by decide)

/-! ## Further lemmas -/

theorem endOf_intervalAt_eq (e p c : Int) :
    endOf (intervalAt e p c) = if c + p ≤ e then c + p - 1 else e := by
  rw [endOf_intervalAt]
  simp only [nextCursor]
  split_ifs <;> omega

theorem mem_downloadIntervals (s e p : Int) (hp : 1 ≤ p) (hse : s ≤ e) (d : downloadInterval)
    (hd : d ∈ downloadIntervals s e p) :
    ∃ i : Nat, (i : Int) < numberOfIntervals s e p ∧ d = intervalAt e p (s + (i : Int) * p) := by
  obtain ⟨i, hi, rfl⟩ := List.getElem_of_mem hd
  refine ⟨i, ?_, getElem_downloadIntervals s e p hp hse i hi⟩
  rw [length_downloadIntervals] at hi
  omega

theorem span_intervalsLoop (e p : Int) (n : Nat) (c : Int) :
    (intervalsLoop e p n c).map span = partitionWalk e p n c := by
  induction n generalizing c with
  | zero => rfl
  | succ n ih =>
    simp only [intervalsLoop, List.map_cons, partitionWalk, ih, span, startOf_intervalAt,
      endOf_intervalAt_eq, nextCursor]
    by_cases h : c + p > e
    · have h2 : ¬ (c + p ≤ e) := by omega
      simp [h, h2]
    · have h2 : c + p ≤ e := by omega
      simp [h, h2]

/-- C11: for `period ≥ 1` and every year `y`, both of magnitude below `2 ^ 52`
(in particular for every `y ≥ 1957` in that range), `downloadIntervals(y, y,
period)` is exactly one interval, from January to December, whose start code
and end code both decode to `y`; `downloadIntervals(2000, 2000, 25)` is the
single span `[2000, 2000]`. -/
theorem downloadIntervals_single_year (y period : Int) (hp : 1 ≤ period)
    (_hy : inModelRange y) (_hpr : inModelRange period) :
    (∃ d, downloadIntervals y y period = [d] ∧ startOf d = y ∧ endOf d = y ∧
      d.sMonth = January ∧ d.eMonth = December) ∧
    (downloadIntervals 2000 2000 25).map span = [(2000, 2000)] := by
  refine ⟨⟨intervalAt y period y, ?_, startOf_intervalAt _ _ _, ?_, rfl, rfl⟩, by decide⟩
  · simp [downloadIntervals, numberOfIntervals, ceilDiv, intervalsLoop]
  · rw [endOf_intervalAt_eq]
    split_ifs <;> omega

/-- Witness of C11 at the year 1957 with period 25. -/
theorem downloadIntervals_single_year_witness :
    (∃ d, downloadIntervals 1957 1957 25 = [d] ∧ startOf d = 1957 ∧ endOf d = 1957 ∧
      d.sMonth = January ∧ d.eMonth = December) ∧
    (downloadIntervals 2000 2000 25).map span = [(2000, 2000)] :=
  downloadIntervals_single_year 1957 25 (by decide) (by decide) (by decide)

/-- C12: for `period ≥ 1` and `startYear ≤ endYear`, all of magnitude below
`2 ^ 52`, every interval returned by `downloadIntervals` is not reversed and contains at most `period` years; hence
every interval that `Fetch` queries, with the period 25 set by `New`, spans at
most 25 years. -/
theorem downloadIntervals_span_le_period (startYear endYear period : Int)
    (hp : 1 ≤ period) (hse : startYear ≤ endYear)
    (_hs : inModelRange startYear) (_he : inModelRange endYear)
    (_hpr : inModelRange period) :
    (∀ d ∈ downloadIntervals startYear endYear period,
      startOf d ≤ endOf d ∧ endOf d - startOf d + 1 ≤ period) ∧
    (∀ d ∈ downloadIntervals startYear endYear New.period,
      startOf d ≤ endOf d ∧ endOf d - startOf d + 1 ≤ 25) := by
  have key : ∀ p : Int, 1 ≤ p → ∀ d ∈ downloadIntervals startYear endYear p,
      startOf d ≤ endOf d ∧ endOf d - startOf d + 1 ≤ p := by
    intro p hp d hd
    obtain ⟨i, hi, rfl⟩ := mem_downloadIntervals startYear endYear p hp hse d hd
    obtain ⟨_, h2, _⟩ := numberOfIntervals_spec startYear endYear p hp hse
    have hi0 : (0 : Int) ≤ i := Int.ofNat_nonneg i
    have hstart : startYear + (i : Int) * p ≤ endYear := by nlinarith
    rw [startOf_intervalAt, endOf_intervalAt_eq]
    split_ifs <;> constructor <;> omega
  exact ⟨key period hp, key 25 (by decide)⟩

/-- Witness of C12 on `downloadIntervals(1957, 2020, 25)`. -/
theorem downloadIntervals_span_le_period_witness :
    (∀ d ∈ downloadIntervals 1957 2020 25,
      startOf d ≤ endOf d ∧ endOf d - startOf d + 1 ≤ 25) ∧
    (∀ d ∈ downloadIntervals 1957 2020 New.period,
      startOf d ≤ endOf d ∧ endOf d - startOf d + 1 ≤ 25) :=
  downloadIntervals_span_le_period 1957 2020 25 (by decide) (by decide)
    (by decide) (by decide) (by decide)

/-- C16: `downloadIntervals(1957, 2006, 25)` is exactly two intervals, with date
codes `(19, 50, 7)` January to `(19, 80, 1)` December and `(19, 80, 2)` January
to `(20, 0, 6)` December, which decode to `[1957, 1981]` and `[1982, 2006]`. -/
theorem downloadIntervals_1957_2006 :
    downloadIntervals 1957 2006 25 =
      [ { sCent := 19, sTens := 50, sYear := 7, sMonth := January,
          eCent := 19, eTens := 80, eYear := 1, eMonth := December },
        { sCent := 19, sTens := 80, sYear := 2, sMonth := January,
          eCent := 20, eTens := 0, eYear := 6, eMonth := December } ] ∧
    (downloadIntervals 1957 2006 25).map span = [(1957, 1981), (1982, 2006)] :=
  ⟨by decide, by decide⟩

theorem numberOfIntervals_eq_count (s e p : Int) (hp : 1 ≤ p) (hse : s ≤ e) :
    numberOfIntervals s e p = if e = s then 1 else ceilDiv (e - s) p := by
  obtain ⟨h1, h2⟩ := ceilDiv_spec (e - s) p (by omega)
  simp only [numberOfIntervals]
  split_ifs with h0 h h
  · rfl
  · rw [h0] at h2
    omega
  · subst h
    simp [ceilDiv] at h0
  · rfl

/-- C18: for `period ≥ 1` and `startYear ≤ endYear`, all of magnitude below
`2 ^ 52`, `downloadIntervals` is the walk of the specification: its decoded spans are those of `partitionSpec`, and
the interval of index `i` runs from January to December, starts at
`startYear + i * period`, and ends at `startYear + (i + 1) * period - 1` when
`startYear + (i + 1) * period ≤ endYear` (step not clamped) and at `endYear`
otherwise; the test `end - cursor == period` of the code holds exactly when the
step is not clamped, and a step that has a successor is not clamped. -/
theorem downloadIntervals_walk (startYear endYear period : Int)
    (hp : 1 ≤ period) (hse : startYear ≤ endYear)
    (_hs : inModelRange startYear) (_he : inModelRange endYear)
    (_hpr : inModelRange period) :
    (downloadIntervals startYear endYear period).map span =
      partitionSpec startYear endYear period ∧
    ∀ (i : Nat) (hi : i < (downloadIntervals startYear endYear period).length),
      ((downloadIntervals startYear endYear period)[i]).sMonth = January ∧
      ((downloadIntervals startYear endYear period)[i]).eMonth = December ∧
      startOf ((downloadIntervals startYear endYear period)[i]) =
        startYear + (i : Int) * period ∧
      endOf ((downloadIntervals startYear endYear period)[i]) =
        (if startYear + ((i : Int) + 1) * period ≤ endYear
          then startYear + ((i : Int) + 1) * period - 1 else endYear) ∧
      (nextCursor endYear period (startYear + (i : Int) * period) -
          (startYear + (i : Int) * period) = period ↔
        startYear + ((i : Int) + 1) * period ≤ endYear) ∧
      (i + 1 < (downloadIntervals startYear endYear period).length →
        startYear + ((i : Int) + 1) * period ≤ endYear) := by
  constructor
  · simp only [downloadIntervals, partitionSpec, span_intervalsLoop,
      numberOfIntervals_eq_count startYear endYear period hp hse]
  · intro i hi
    obtain ⟨_, h2, _⟩ := numberOfIntervals_spec startYear endYear period hp hse
    have hexp : startYear + ((i : Int) + 1) * period =
        startYear + (i : Int) * period + period := by ring
    rw [getElem_downloadIntervals _ _ _ hp hse, startOf_intervalAt, endOf_intervalAt_eq, hexp]
    refine ⟨rfl, rfl, rfl, rfl, ?_, ?_⟩
    · simp only [nextCursor]
      split_ifs <;> constructor <;> intro h <;> omega
    · intro hi2
      rw [length_downloadIntervals] at hi2
      have hi3 : ((i : Int) + 1) + 1 ≤ numberOfIntervals startYear endYear period := by omega
      nlinarith

/-- Witness of C18 on `downloadIntervals(1957, 2020, 25)`. -/
theorem downloadIntervals_walk_witness :
    (downloadIntervals 1957 2020 25).map span = partitionSpec 1957 2020 25 :=
  (downloadIntervals_walk 1957 2020 25 (by decide) (by decide)
    (by decide) (by decide) (by decide)).1

/-- C19: for `period ≥ 1` and `startYear ≤ endYear`, all of magnitude below
`2 ^ 52`, the list returned by `downloadIntervals` has a last interval, whose decoded end year is `endYear` if
and only if `startYear = endYear` or `period` does not divide
`endYear - startYear`; when `startYear < endYear` and `period` divides
`endYear - startYear`, the last interval ends at `endYear - 1` and the year
`endYear` lies in no interval. -/
theorem downloadIntervals_last_end (startYear endYear period : Int)
    (hp : 1 ≤ period) (hse : startYear ≤ endYear)
    (_hs : inModelRange startYear) (_he : inModelRange endYear)
    (_hpr : inModelRange period) :
    ∃ last, (downloadIntervals startYear endYear period).getLast? = some last ∧
      (endOf last = endYear ↔
        (startYear = endYear ∨ ¬ period ∣ (endYear - startYear))) ∧
      (startYear < endYear → period ∣ (endYear - startYear) →
        endOf last = endYear - 1 ∧
        ∀ d ∈ downloadIntervals startYear endYear period,
          ¬ (startOf d ≤ endYear ∧ endYear ≤ endOf d)) := by
  obtain ⟨h1, h2, h3⟩ := numberOfIntervals_spec startYear endYear period hp hse
  have hlen := length_downloadIntervals startYear endYear period
  have hpos : (downloadIntervals startYear endYear period).length - 1 <
      (downloadIntervals startYear endYear period).length := by
    rw [hlen]; omega
  have hcast : (((downloadIntervals startYear endYear period).length - 1 : Nat) : Int) =
      numberOfIntervals startYear endYear period - 1 := by
    rw [hlen]; omega
  -- the period divides the range exactly when the last step is not clamped
  have hdvd : startYear < endYear → (period ∣ (endYear - startYear) ↔
      startYear + numberOfIntervals startYear endYear period * period = endYear) := by
    intro hlt
    have hstrict : startYear + (numberOfIntervals startYear endYear period - 1) * period <
        endYear := by
      have hc := (ceilDiv_spec (endYear - startYear) period (by omega)).1
      rw [numberOfIntervals_eq_count startYear endYear period hp hse, if_neg (by omega)]
      linarith
    constructor
    · rintro ⟨k, hk⟩
      have hk1 : numberOfIntervals startYear endYear period - 1 < k := by
        by_contra hcon
        have : k ≤ numberOfIntervals startYear endYear period - 1 := by omega
        nlinarith
      have hk2 : k ≤ numberOfIntervals startYear endYear period := by
        by_contra hcon
        have : numberOfIntervals startYear endYear period + 1 ≤ k := by omega
        nlinarith
      have : k = numberOfIntervals startYear endYear period := by omega
      subst this
      linarith
    · intro h
      exact ⟨numberOfIntervals startYear endYear period, by linarith⟩
  refine ⟨(downloadIntervals startYear endYear period)[
    (downloadIntervals startYear endYear period).length - 1], ?_, ?_, ?_⟩
  · rw [List.getLast?_eq_getElem?, List.getElem?_eq_getElem hpos]
  · rw [getElem_downloadIntervals _ _ _ hp hse, endOf_intervalAt_eq, hcast]
    have hexp : startYear + (numberOfIntervals startYear endYear period - 1) * period + period
        = startYear + numberOfIntervals startYear endYear period * period := by ring
    rw [hexp]
    rcases eq_or_lt_of_le hse with heq | hlt
    · subst heq
      have hn : numberOfIntervals startYear startYear period = 1 := by
        simp [numberOfIntervals, ceilDiv]
      rw [hn]
      split_ifs <;> constructor <;> intro h <;> omega
    · have := hdvd hlt
      split_ifs with hc
      · have heq : startYear + numberOfIntervals startYear endYear period * period = endYear := by
          omega
        constructor
        · intro h; omega
        · rintro (h | h)
          · omega
          · exact absurd (this.mpr heq) h
      · constructor
        · intro _
          right
          intro hd
          exact hc (le_of_eq (this.mp hd))
        · intro _; rfl
  · intro hlt hd
    have heq := (hdvd hlt).mp hd
    constructor
    · rw [getElem_downloadIntervals _ _ _ hp hse, endOf_intervalAt_eq, hcast]
      split_ifs with hc
      · linarith
      · exfalso; apply hc; linarith
    · intro d hmem
      obtain ⟨i, hi, rfl⟩ := mem_downloadIntervals startYear endYear period hp hse d hmem
      rw [startOf_intervalAt, endOf_intervalAt_eq]
      have hi2 : (i : Int) + 1 ≤ numberOfIntervals startYear endYear period := by omega
      have hle : startYear + (i : Int) * period + period ≤ endYear := by nlinarith
      rw [if_pos hle]
      omega

/-- Witness of C19 on `downloadIntervals(1957, 1982, 25)`, where the period
divides the range: the last interval ends at 1981 and 1982 is in no interval. -/
theorem downloadIntervals_last_end_witness :
    ∃ last, (downloadIntervals 1957 1982 25).getLast? = some last ∧
      endOf last = 1982 - 1 ∧
      ∀ d ∈ downloadIntervals 1957 1982 25, ¬ (startOf d ≤ 1982 ∧ 1982 ≤ endOf d) :=
  (downloadIntervals_last_end 1957 1982 25 (by decide) (by decide)
    (by decide) (by decide) (by decide)).elim
    (fun last h => ⟨last, h.1, h.2.2 (by decide) (by decide)⟩)

theorem exists_first_failure (fetch : URL → Except error Bytes) (l : List downloadInterval)
    (h : ∃ d ∈ l, ∃ err, fetch (urlOf d) = Except.error err) :
    ∃ pre d post err, l = pre ++ d :: post ∧
      (∀ x ∈ pre, ∃ body, fetch (urlOf x) = Except.ok body) ∧
      fetch (urlOf d) = Except.error err := by
  induction l with
  | nil =>
    obtain ⟨d, hd, _⟩ := h
    simp at hd
  | cons a rest ih =>
    rcases hfa : fetch (urlOf a) with err | body
    · exact ⟨[], a, rest, err, rfl, by simp, hfa⟩
    · have hrest : ∃ d ∈ rest, ∃ err, fetch (urlOf d) = Except.error err := by
        obtain ⟨d, hd, err, herr⟩ := h
        rcases List.mem_cons.mp hd with rfl | hmem
        · rw [hfa] at herr
          cases herr
        · exact ⟨d, hmem, err, herr⟩
      obtain ⟨pre, d, post, err, hl, hpre, hd⟩ := ih hrest
      refine ⟨a :: pre, d, post, err, by rw [hl]; rfl, ?_, hd⟩
      intro x hx
      rcases List.mem_cons.mp hx with rfl | hmem
      · exact ⟨body, hfa⟩
      · exact hpre x hmem

/-- C13: for a valid range, if the collaborator fails on some interval, then
the list of intervals splits at the first failing one, the error returned by
`Fetch` is exactly the error of that first failing fetch, and the URLs
requested are those of the intervals up to and including it: no URL of a later
interval is fetched. -/
theorem Fetch_first_failure (currentYear startYear endYear : Int)
    (fetch : URL → Except error Bytes)
    (hs : 1957 ≤ startYear) (hec : endYear ≤ currentYear)
    (hfail : ∃ d ∈ downloadIntervals startYear endYear 25,
      ∃ err, fetch (urlOf d) = Except.error err)
    (log : List URL) :
    ∃ pre d post err, downloadIntervals startYear endYear 25 = pre ++ d :: post ∧
      (∀ x ∈ pre, ∃ body, fetch (urlOf x) = Except.ok body) ∧
      fetch (urlOf d) = Except.error err ∧
      (Fetch New currentYear (recording fetch) startYear endYear log).1.2 = some err ∧
      (Fetch New currentYear (recording fetch) startYear endYear log).2 =
        log ++ pre.map urlOf ++ [urlOf d] := by
  obtain ⟨pre, d, post, err, hl, hpre, hd⟩ := exists_first_failure fetch _ hfail
  refine ⟨pre, d, post, err, hl, hpre, hd, ?_, ?_⟩ <;>
  · simp only [Fetch, New, if_neg (not_lt.mpr hs), if_neg (not_lt.mpr hec), gt_iff_lt]
    rw [hl, fetchLoop_recording_fail fetch pre d post err hpre hd]

set_option maxRecDepth 100000 in
/-- Witness of C13: `Fetch(1957, 2020)` with current year 2024 and the
collaborator failing on the second URL. -/
theorem Fetch_first_failure_witness :
    ∃ pre d post err, downloadIntervals 1957 2020 25 = pre ++ d :: post ∧
      (∀ x ∈ pre, ∃ body, failOn query1982to2006 "boom" [7] (urlOf x) = Except.ok body) ∧
      failOn query1982to2006 "boom" [7] (urlOf d) = Except.error err ∧
      (Fetch New 2024 (recording (failOn query1982to2006 "boom" [7])) 1957 2020 []).1.2 =
        some err ∧
      (Fetch New 2024 (recording (failOn query1982to2006 "boom" [7])) 1957 2020 []).2 =
        [] ++ pre.map urlOf ++ [urlOf d] :=
  Fetch_first_failure 2024 1957 2020 (failOn query1982to2006 "boom" [7])
    (by decide) (by decide)
    ⟨(downloadIntervals 1957 2020 25)[1], List.getElem_mem _, "boom", by decide⟩ []

/-- C14: whenever `startYear < 1957` or `endYear > currentYear`, `Fetch` returns
without invoking the collaborator: the collaborator state is unchanged, an error
is returned with no bytes, and the returned pair is the same for every
collaborator. -/
theorem Fetch_invalid_range_no_request {σ τ : Type} (self : dst)
    (currentYear startYear endYear : Int)
    (h : startYear < 1957 ∨ endYear > currentYear)
    (get1 : URL → σ → Except error Bytes × σ) (w1 : σ)
    (get2 : URL → τ → Except error Bytes × τ) (w2 : τ) :
    (Fetch self currentYear get1 startYear endYear w1).2 = w1 ∧
    (Fetch self currentYear get1 startYear endYear w1).1 =
      (Fetch self currentYear get2 startYear endYear w2).1 ∧
    (Fetch self currentYear get1 startYear endYear w1).1.1 = [] ∧
    (Fetch self currentYear get1 startYear endYear w1).1.2 ≠ none := by
  by_cases h1 : startYear < 1957
  · simp [Fetch, h1]
  · have h2 : endYear > currentYear := by
      rcases h with h | h
      · exact absurd h h1
      · exact h
    simp [Fetch, h1, h2]

/-- Witness of C14: `Fetch(1900, 2024)` with current year 2024, on a recording
collaborator that succeeds and on one that fails. -/
theorem Fetch_invalid_range_no_request_witness :
    (Fetch New 2024 (recording (fun _ => Except.ok [7])) 1900 2024 []).2 = [] ∧
    (Fetch New 2024 (recording (fun _ => Except.ok [7])) 1900 2024 []).1 =
      (Fetch New 2024 (recording (fun _ => Except.error "boom")) 1900 2024 []).1 ∧
    (Fetch New 2024 (recording (fun _ => Except.ok [7])) 1900 2024 []).1.1 = [] ∧
    (Fetch New 2024 (recording (fun _ => Except.ok [7])) 1900 2024 []).1.2 ≠ none :=
  Fetch_invalid_range_no_request New 2024 1900 2024 (Or.inl (by decide))
    (recording (fun _ => Except.ok [7])) [] (recording (fun _ => Except.error "boom")) []

/-- C15: the range error reports the offending value.  When `startYear < 1957`
the message of the error of `Fetch` ends with the decimal rendering of
`startYear`; when `startYear ≥ 1957` and `endYear > currentYear` it ends with
the decimal rendering of `endYear`; `Fetch(1900, 2024)` cites 1900. -/
theorem Fetch_range_error_message {σ : Type} (self : dst)
    (currentYear startYear endYear : Int)
    (h : startYear < 1957 ∨ endYear > currentYear)
    (get : URL → σ → Except error Bytes × σ) (w : σ) :
    (∃ msg, (Fetch self currentYear get startYear endYear w).1.2 = some msg ∧
      msg = (if startYear < 1957
        then "expected \x27startYear\x27 to be greater than 1957, got " ++ fmtD startYear
        else "expected \x27endYear\x27 to be smaller than " ++ fmtD currentYear ++ ", got "
          ++ fmtD endYear) ∧
      (fmtD (if startYear < 1957 then startYear else endYear)).data <:+: msg.data) ∧
    (Fetch self 2024 get 1900 2024 w).1.2 =
      some "expected \x27startYear\x27 to be greater than 1957, got 1900" := by
  have e1900 : "expected \x27startYear\x27 to be greater than 1957, got " ++ fmtD 1900 =
      "expected \x27startYear\x27 to be greater than 1957, got 1900" := by decide
  constructor
  · by_cases h1 : startYear < 1957
    · refine ⟨"expected \x27startYear\x27 to be greater than 1957, got " ++ fmtD startYear,
        ?_, ?_, ?_⟩
      · simp only [Fetch, if_pos h1]
      · simp only [if_pos h1]
      · simp only [if_pos h1, String.data_append]
        exact (List.suffix_append _ _).isInfix
    · have h2 : endYear > currentYear := by
        rcases h with h | h
        · exact absurd h h1
        · exact h
      refine ⟨"expected \x27endYear\x27 to be smaller than " ++ fmtD currentYear ++ ", got "
          ++ fmtD endYear, ?_, ?_, ?_⟩
      · simp only [Fetch, if_neg h1, if_pos h2]
      · simp only [if_neg h1]
      · simp only [if_neg h1, String.data_append]
        exact (List.suffix_append _ _).isInfix
  · simp only [Fetch, if_pos (show (1900 : Int) < 1957 by decide), e1900]

/-- Witness of C15: `Fetch(1957, 2025)` with current year 2024. -/
theorem Fetch_range_error_message_witness :
    (∃ msg, (Fetch New 2024 (recording (fun _ => Except.ok [7])) 1957 2025 []).1.2 = some msg ∧
      msg = (if (1957 : Int) < 1957
        then "expected \x27startYear\x27 to be greater than 1957, got " ++ fmtD 1957
        else "expected \x27endYear\x27 to be smaller than " ++ fmtD 2024 ++ ", got "
          ++ fmtD 2025) ∧
      (fmtD (if (1957 : Int) < 1957 then 1957 else 2025)).data <:+: msg.data) ∧
    (Fetch New 2024 (recording (fun _ => Except.ok [7])) 1900 2024 []).1.2 =
      some "expected \x27startYear\x27 to be greater than 1957, got 1900" :=
  Fetch_range_error_message New 2024 1957 2025 (Or.inr (by decide))
    (recording (fun _ => Except.ok [7])) []

theorem numberOfIntervals_reversed (s e p : Int) (hp : 1 ≤ p) (hrev : e < s) :
    (s - e ≥ p → numberOfIntervals s e p < 0) ∧ (s - e < p → numberOfIntervals s e p = 1) := by
  obtain ⟨h1, h2⟩ := ceilDiv_spec (e - s) p (by omega)
  simp only [numberOfIntervals]
  constructor
  · intro h
    have hneg : ceilDiv (e - s) p < 0 := by
      by_contra hcon
      have : 0 ≤ ceilDiv (e - s) p := by omega
      nlinarith
    rw [if_neg (by omega)]
    exact hneg
  · intro h
    have h0 : ceilDiv (e - s) p = 0 := by
      have ha : 0 ≤ ceilDiv (e - s) p := by
        by_contra hcon
        have : ceilDiv (e - s) p ≤ -1 := by omega
        nlinarith
      have hb : ceilDiv (e - s) p ≤ 0 := by
        by_contra hcon
        have : 1 ≤ ceilDiv (e - s) p := by omega
        nlinarith
      omega
    rw [if_pos h0]

theorem downloadIntervals_reversed (s e p : Int) (hp : 1 ≤ p) (hrev : e < s) :
    (s - e ≥ p → downloadIntervals s e p = []) ∧
    (s - e < p → downloadIntervals s e p = [intervalAt e p s] ∧
      startOf (intervalAt e p s) = s ∧ endOf (intervalAt e p s) = e) := by
  obtain ⟨h1, h2⟩ := numberOfIntervals_reversed s e p hp hrev
  constructor
  · intro h
    have := h1 h
    simp only [downloadIntervals, Int.toNat_of_nonpos (le_of_lt this), intervalsLoop]
  · intro h
    refine ⟨?_, startOf_intervalAt _ _ _, ?_⟩
    · simp only [downloadIntervals, h2 h, Int.toNat_one, intervalsLoop]
    · rw [endOf_intervalAt_eq, if_neg (by omega)]

/-- C20: a reversed range is not rejected.  For `period ≥ 1` and
`startYear > endYear`, all of magnitude below `2 ^ 52`, `downloadIntervals` returns the empty list when
`startYear - endYear ≥ period` and otherwise exactly one interval, whose start
decodes to `startYear` and whose end decodes to `endYear`.  For
`1957 ≤ endYear < startYear ≤ currentYear`, `Fetch` raises no range error: when
`startYear - endYear ≥ 25` it returns no error and no bytes and requests
nothing; otherwise it issues exactly one request, for the reversed span, and
returns the outcome of that request, which is no error when the request
succeeds. -/
theorem reversed_range_not_rejected (startYear endYear period currentYear : Int)
    (hp : 1 ≤ period) (hrev : endYear < startYear)
    (_hs : inModelRange startYear) (_he : inModelRange endYear)
    (_hpr : inModelRange period)
    (fetch : URL → Except error Bytes) (log : List URL) :
    (startYear - endYear ≥ period → downloadIntervals startYear endYear period = []) ∧
    (startYear - endYear < period →
      ∃ d, downloadIntervals startYear endYear period = [d] ∧
        startOf d = startYear ∧ endOf d = endYear) ∧
    (1957 ≤ endYear → startYear ≤ currentYear →
      (startYear - endYear ≥ 25 →
        Fetch New currentYear (recording fetch) startYear endYear log = (([], none), log)) ∧
      (startYear - endYear < 25 →
        ∃ d, downloadIntervals startYear endYear 25 = [d] ∧
          startOf d = startYear ∧ endOf d = endYear ∧
          (Fetch New currentYear (recording fetch) startYear endYear log).2 =
            log ++ [urlOf d] ∧
          (Fetch New currentYear (recording fetch) startYear endYear log).1 =
            (bodyOf (fetch (urlOf d)), errorOf (fetch (urlOf d))) ∧
          ((∃ body, fetch (urlOf d) = Except.ok body) →
            (Fetch New currentYear (recording fetch) startYear endYear log).1.2 = none))) := by
  obtain ⟨ha, hb⟩ := downloadIntervals_reversed startYear endYear period hp hrev
  obtain ⟨ha25, hb25⟩ := downloadIntervals_reversed startYear endYear 25 (by decide) hrev
  refine ⟨ha, fun h => ⟨_, hb h⟩, ?_⟩
  intro h1957 hc
  have hfetch : Fetch New currentYear (recording fetch) startYear endYear log =
      fetchLoop (recording fetch) (downloadIntervals startYear endYear 25) [] log := by
    simp only [Fetch, New, if_neg (show ¬ startYear < 1957 by omega),
      if_neg (show ¬ endYear > currentYear by omega)]
  constructor
  · intro h
    rw [hfetch, ha25 h]
    rfl
  · intro h
    obtain ⟨hl, hs, he⟩ := hb25 h
    refine ⟨_, hl, hs, he, ?_, ?_, ?_⟩
    · rw [hfetch, hl]
      simp only [fetchLoop, recording]
      rcases fetch (urlOf (intervalAt endYear 25 startYear)) with err | body <;> rfl
    · rw [hfetch, hl]
      simp only [fetchLoop, recording]
      rcases fetch (urlOf (intervalAt endYear 25 startYear)) with err | body <;> rfl
    · rintro ⟨body, hbody⟩
      rw [hfetch, hl]
      simp only [fetchLoop, recording, hbody]

/-- Witness of C20: `Fetch(2000, 1990)` with current year 2024 issues one
request, for the reversed span from 2000 to 1990, and returns its body. -/
theorem reversed_range_not_rejected_witness :
    ∃ d, downloadIntervals 2000 1990 25 = [d] ∧
      startOf d = 2000 ∧ endOf d = 1990 ∧
      (Fetch New 2024 (recording (fun _ => Except.ok [7])) 2000 1990 []).2 =
        [] ++ [urlOf d] ∧
      (Fetch New 2024 (recording (fun _ => Except.ok [7])) 2000 1990 []).1 = ([7], none) :=
  ((reversed_range_not_rejected 2000 1990 25 2024 (by decide) (by decide)
    (by decide) (by decide) (by decide)
    (fun _ => Except.ok [7]) []).2.2 (by decide) (by decide)).2 (by decide) |>.elim
    (fun d h => ⟨d, h.1, h.2.1, h.2.2.1, h.2.2.2.1, h.2.2.2.2.1⟩)

/-- C17 (defect in the code): when the request and the read succeed and closing
the response body fails with `e`, `Get` returns `(body, nil)`: the close error
is assigned to the local variable `err` after the returned pair is fixed, and
is not returned.  When the request or the read fails, `Get` returns that
error. -/
theorem Get_close_error_not_returned (body : Bytes) (e e1 : error)
    (r : Except error Bytes) (c : Option error) :
    Get { request := none, readAll := Except.ok body, close := some e } =
      ((body, none), some e) ∧
    (Get { request := none, readAll := Except.ok body, close := some e }).1.2 ≠ some e ∧
    (Get { request := some e1, readAll := r, close := c }).1 = ([], some e1) ∧
    (Get { request := none, readAll := Except.error e1, close := c }).1 = ([], some e1) :=
  ⟨rfl, by simp [Get], rfl, rfl⟩

end Dst
